import Mathlib

/-!
Verification of the call-signaling relay of the repository
(`registerRoutes`, WebSocket section: the `connections` and `activeCalls`
maps and the handlers for `register`, `call-offer`, `call-answer`,
`call-reject`/`call-end`, `ice-candidate` and socket close).

The JavaScript `Map`s are modelled as association lists with unique keys,
`Map.set` as in-place replace-or-append, `Map.delete` as key removal.
A WebSocket handle is modelled as a `Nat` identifier; its
`readyState === WebSocket.OPEN` test is an environment parameter
`isOpen : Nat → Bool` supplied to each handler, since the peer may close
its socket at any time. Outbound `ws.send` calls are collected as a list
of (target connection, message) pairs in handler output order.
-/

namespace MinimalChat

/-- Media kind `type: 'voice' | 'video'` of a call record. -/
inductive CallType
  | voice
  | video
deriving DecidableEq, Repr

/-- Lifecycle `status: 'ringing' | 'active' | 'ended'` of a call record. -/
inductive CallStatus
  | ringing
  | active
  | ended
deriving DecidableEq, Repr

/-- One record of the `activeCalls` map (source lines 225-231). -/
structure CallSession where
  callId : String
  callerId : String
  receiverId : String
  type : CallType
  status : CallStatus
deriving DecidableEq, Repr

/-- Association-list model of a JS `Map`: `get`. -/
def lookupA {α : Type} (k : String) : List (String × α) → Option α
  | [] => none
  | (k', v) :: rest => if k' = k then some v else lookupA k rest

/-- Association-list model of `Map.set`: replace in place, else append
(JS `Map.set` keeps the insertion position of an existing key). -/
def setA {α : Type} (k : String) (v : α) : List (String × α) → List (String × α)
  | [] => [(k, v)]
  | (k', v') :: rest => if k' = k then (k, v) :: rest else (k', v') :: setA k v rest

/-- Association-list model of `Map.delete`. -/
def eraseA {α : Type} (k : String) (l : List (String × α)) : List (String × α) :=
  l.filter (fun p => p.1 ≠ k)

/-- Outbound signaling messages built by `JSON.stringify` in the source. -/
inductive OutMsg
  | callInitiated (callId : String)
  | incomingCall (callId : String) (callerId : String) (callerName : String)
      (callType : CallType) (offer : String)
  | callFailed (reason : String)
  | callAnswered (callId : String) (answer : String)
  | callRejected (callId : String)
  | callEnded (callId : String) (reason : Option String)
  | iceCandidate (callId : String) (candidate : String)
deriving DecidableEq, Repr

/-- The call id carried by an outbound message, when it has one. -/
def msgCallId : OutMsg → Option String
  | .callInitiated c => some c
  | .incomingCall c _ _ _ _ => some c
  | .callFailed _ => none
  | .callAnswered c _ => some c
  | .callRejected c => some c
  | .callEnded c _ => some c
  | .iceCandidate c _ => some c

/-- The two shared maps of the relay: `connections : userId -> ws`
and `activeCalls : callId -> CallSession`. -/
structure SrvState where
  connections : List (String × Nat)
  activeCalls : List (String × CallSession)
deriving DecidableEq, Repr

/-- The repeated source pattern
`const w = connections.get(target); if (w && w.readyState === WebSocket.OPEN)`:
the connection a send to `target` reaches, if any. -/
def deliverTo (conns : List (String × Nat)) (isOpen : Nat → Bool)
    (target : String) : Option Nat :=
  match lookupA target conns with
  | some w => if isOpen w then some w else none
  | none => none

/-- Handler for `case 'register'` (lines 241-245): `connections.set(userId, ws)`;
also records the connection-local `userId` variable, which it returns. -/
def handleRegister (st : SrvState) (ws : Nat) (uid : String) :
    SrvState × Option String :=
  ({ st with connections := setA uid ws st.connections }, some uid)

/-- Handler for `case 'call-offer'` (lines 247-284). `userId` is the sender's
connection-local registered id (`userId!` in the source), `ws` its socket,
`callId` the token produced by `Math.random().toString(36).substring(7)` —
modelled as an input, since the draw is not a function of the state. -/
def handleOffer (st : SrvState) (isOpen : Nat → Bool) (userId : String) (ws : Nat)
    (receiverId : String) (offer : String) (callType : CallType)
    (callerName : String) (callId : String) : SrvState × List (Nat × OutMsg) :=
  let sess : CallSession :=
    { callId := callId, callerId := userId, receiverId := receiverId
      type := callType, status := .ringing }
  let st1 : SrvState := { st with activeCalls := setA callId sess st.activeCalls }
  let out1 : List (Nat × OutMsg) := [(ws, .callInitiated callId)]
  match deliverTo st1.connections isOpen receiverId with
  | some rws =>
      (st1, out1 ++ [(rws, .incomingCall callId userId callerName callType offer)])
  | none =>
      (st1, out1 ++ [(ws, .callFailed "User not available")])

/-- Handler for `case 'call-answer'` (lines 286-302). The source reads only
`message.callId` and `message.answer`; the sender's identity is not used. -/
def handleAnswer (st : SrvState) (isOpen : Nat → Bool) (callId : String)
    (answer : String) : SrvState × List (Nat × OutMsg) :=
  match lookupA callId st.activeCalls with
  | none => (st, [])
  | some call =>
      let st1 : SrvState :=
        { st with activeCalls := setA callId { call with status := .active } st.activeCalls }
      match deliverTo st1.connections isOpen call.callerId with
      | some cws => (st1, [(cws, .callAnswered callId answer)])
      | none => (st1, [])

/-- Handler for `case 'call-reject'` / `case 'call-end'` (lines 304-323).
`isReject` distinguishes the two message types; `userId` is the sender's
connection-local registered id (`string | null` in the source, compared with
`===` against the stored caller id). -/
def handleEnd (st : SrvState) (isOpen : Nat → Bool) (userId : Option String)
    (isReject : Bool) (callId : String) : SrvState × List (Nat × OutMsg) :=
  match lookupA callId st.activeCalls with
  | none => (st, [])
  | some endCall =>
      let st1 : SrvState :=
        { st with activeCalls := setA callId { endCall with status := .ended } st.activeCalls }
      let otherUserId : String :=
        if userId = some endCall.callerId then endCall.receiverId else endCall.callerId
      let out : List (Nat × OutMsg) :=
        match deliverTo st1.connections isOpen otherUserId with
        | some ows =>
            [(ows, if isReject then .callRejected callId else .callEnded callId none)]
        | none => []
      ({ st1 with activeCalls := eraseA callId st1.activeCalls }, out)

/-- Handler for `case 'ice-candidate'` (lines 325-340). -/
def handleIce (st : SrvState) (isOpen : Nat → Bool) (userId : Option String)
    (callId : String) (candidate : String) : SrvState × List (Nat × OutMsg) :=
  match lookupA callId st.activeCalls with
  | none => (st, [])
  | some call =>
      let otherUserId : String :=
        if userId = some call.callerId then call.receiverId else call.callerId
      match deliverTo st.connections isOpen otherUserId with
      | some ows => (st, [(ows, .iceCandidate callId candidate)])
      | none => (st, [])

/-- Handler for `ws.on('close')` (lines 347-368). `ws` is the closing socket — the source
captures it but never consults it in the handler (the deletion is keyed on
`userId` alone); `userId` is that connection's local registered id. The
`for...of` loop over `activeCalls.entries()` deletes only the entry being
visited, so it is equivalent to: notify from the matching entries, keep the
rest. `connections.delete(userId)` runs before the loop, so peer lookups see
the registry without `userId`. -/
def handleClose (st : SrvState) (isOpen : Nat → Bool) (ws : Nat)
    (userId : Option String) : SrvState × List (Nat × OutMsg) :=
  match userId with
  | none => (st, [])
  | some uid =>
      let conns1 := eraseA uid st.connections
      let involved : String × CallSession → Bool := fun p =>
        p.2.callerId = uid || p.2.receiverId = uid
      let out : List (Nat × OutMsg) :=
        (st.activeCalls.filter involved).filterMap (fun p =>
          let otherUserId :=
            if p.2.callerId = uid then p.2.receiverId else p.2.callerId
          match deliverTo conns1 isOpen otherUserId with
          | some ows => some (ows, .callEnded p.1 (some "User disconnected"))
          | none => none)
      (⟨conns1, st.activeCalls.filter (fun p => ¬ involved p)⟩, out)

/-- One handled input of the relay: an inbound message on some connection, or
a socket close. Each carries the connection-local `userId` of its sender and
the environment's `isOpen` view at delivery time. -/
inductive Event
  | register (ws : Nat) (uid : String)
  | offer (isOpen : Nat → Bool) (userId : String) (ws : Nat) (receiverId : String)
      (sdp : String) (callType : CallType) (callerName : String) (callId : String)
  | answer (isOpen : Nat → Bool) (callId : String) (sdp : String)
  | endCall (isOpen : Nat → Bool) (userId : Option String) (isReject : Bool)
      (callId : String)
  | ice (isOpen : Nat → Bool) (userId : Option String) (callId : String)
      (candidate : String)
  | close (isOpen : Nat → Bool) (ws : Nat) (userId : Option String)

/-- One step of the relay on a shared state. -/
def stepEv (st : SrvState) : Event → SrvState × List (Nat × OutMsg)
  | .register ws uid => ((handleRegister st ws uid).1, [])
  | .offer isOpen userId ws receiverId sdp callType callerName callId =>
      handleOffer st isOpen userId ws receiverId sdp callType callerName callId
  | .answer isOpen callId sdp => handleAnswer st isOpen callId sdp
  | .endCall isOpen userId isReject callId => handleEnd st isOpen userId isReject callId
  | .ice isOpen userId callId candidate => handleIce st isOpen userId callId candidate
  | .close isOpen ws userId => handleClose st isOpen ws userId

/-- Both maps start empty (lines 224-231). -/
def initState : SrvState := ⟨[], []⟩

/-- States the relay can be in after some sequence of handled events. -/
inductive Reachable : SrvState → Prop
  | init : Reachable initState
  | step (st : SrvState) (e : Event) : Reachable st → Reachable (stepEv st e).1

/-- Position of a status along RINGING → ACTIVE → ENDED. -/
def statusRank : CallStatus → Nat
  | .ringing => 0
  | .active => 1
  | .ended => 2

/-- Holds when `e` is a message referencing call id `c` (answer, reject/end or ICE). -/
def refsCall (c : String) : Event → Prop
  | .answer _ cid _ => cid = c
  | .endCall _ _ _ cid => cid = c
  | .ice _ _ cid _ => cid = c
  | _ => False

/-- Number of outbound messages in `out` that reference call id `c`. -/
def countForCall (out : List (Nat × OutMsg)) (c : String) : Nat :=
  (out.filter (fun m => msgCallId m.2 = some c)).length

/-- Helper: the other participant of a session, as the source computes it
(`call.callerId === userId ? call.receiverId : call.callerId`). -/
def otherParty (uid : String) (call : CallSession) : String :=
  if call.callerId = uid then call.receiverId else call.callerId

section AssocLemmas

variable {α : Type}

theorem lookupA_setA_self (k : String) (v : α) (l : List (String × α)) :
    lookupA k (setA k v l) = some v := by
  induction l with
  | nil => simp [setA, lookupA]
  | cons p rest ih =>
      obtain ⟨pk, pv⟩ := p
      by_cases h : pk = k
      · simp [setA, h, lookupA]
      · simp [setA, h, lookupA, ih]

theorem lookupA_setA_ne (k k' : String) (v : α) (l : List (String × α))
    (h : k' ≠ k) : lookupA k' (setA k v l) = lookupA k' l := by
  have h' : ¬ k = k' := fun hh => h hh.symm
  induction l with
  | nil => simp [setA, lookupA, h']
  | cons p rest ih =>
      obtain ⟨pk, pv⟩ := p
      by_cases hp : pk = k
      · subst hp
        simp [setA, lookupA, h']
      · simp only [setA, if_neg hp, lookupA]
        by_cases hq : pk = k'
        · rw [if_pos hq, if_pos hq]
        · rw [if_neg hq, if_neg hq]
          exact ih

theorem lookupA_eraseA_self (k : String) (l : List (String × α)) :
    lookupA k (eraseA k l) = none := by
  induction l with
  | nil => rfl
  | cons p rest ih =>
      obtain ⟨pk, pv⟩ := p
      simp only [eraseA] at ih ⊢
      by_cases h : pk = k
      · rw [List.filter_cons_of_neg (by simp [h])]
        exact ih
      · rw [List.filter_cons_of_pos (by simp [h])]
        rw [lookupA, if_neg h]
        exact ih

theorem lookupA_eraseA_ne (k k' : String) (l : List (String × α))
    (h : k' ≠ k) : lookupA k' (eraseA k l) = lookupA k' l := by
  induction l with
  | nil => rfl
  | cons p rest ih =>
      obtain ⟨pk, pv⟩ := p
      simp only [eraseA] at ih ⊢
      by_cases hp : pk = k
      · rw [List.filter_cons_of_neg (by simp [hp])]
        rw [show lookupA k' ((pk, pv) :: rest) = lookupA k' rest by
              rw [lookupA, if_neg (by rw [hp]; exact fun hh => h hh.symm)]]
        exact ih
      · rw [List.filter_cons_of_pos (by simp [hp])]
        rw [lookupA, lookupA]
        by_cases hq : pk = k'
        · rw [if_pos hq, if_pos hq]
        · rw [if_neg hq, if_neg hq]
          exact ih

theorem lookupA_eq_none_of_not_mem (k : String) (l : List (String × α))
    (h : k ∉ l.map Prod.fst) : lookupA k l = none := by
  induction l with
  | nil => rfl
  | cons p rest ih =>
      rw [List.map_cons, List.mem_cons] at h
      push_neg at h
      rw [lookupA, if_neg (fun hh => h.1 hh.symm)]
      exact ih h.2

theorem lookupA_filter_of_nodup (q : String × α → Bool) (k : String)
    (l : List (String × α)) (hnd : (l.map Prod.fst).Nodup) :
    lookupA k (l.filter q) =
      match lookupA k l with
      | some v => if q (k, v) then some v else none
      | none => none := by
  induction l with
  | nil => rfl
  | cons p rest ih =>
      rw [List.map_cons, List.nodup_cons] at hnd
      obtain ⟨pk, pv⟩ := p
      by_cases h : pk = k
      · subst h
        have hknot : pk ∉ rest.map Prod.fst := hnd.1
        have hl : lookupA pk ((pk, pv) :: rest) = some pv := by
          rw [lookupA, if_pos rfl]
        simp only [hl]
        by_cases hq : q (pk, pv) = true
        · rw [List.filter_cons_of_pos hq]
          rw [lookupA, if_pos rfl]
          rw [if_pos hq]
        · rw [List.filter_cons_of_neg (by simp [hq])]
          have hnone : lookupA pk (rest.filter q) = none :=
            lookupA_eq_none_of_not_mem pk _ (fun hmem => by
              obtain ⟨p', hp', hk'⟩ := List.mem_map.mp hmem
              exact hknot (List.mem_map.mpr ⟨p', (List.mem_filter.mp hp').1, hk'⟩))
          rw [hnone, if_neg (by simpa using hq)]
      · rw [show lookupA k ((pk, pv) :: rest) = lookupA k rest by
              rw [lookupA, if_neg h]]
        by_cases hq : q (pk, pv) = true
        · rw [List.filter_cons_of_pos hq]
          rw [lookupA, if_neg h]
          exact ih hnd.2
        · rw [List.filter_cons_of_neg (by simp [hq])]
          exact ih hnd.2

end AssocLemmas

theorem countForCall_nil (c : String) : countForCall [] c = 0 := rfl

theorem countForCall_eq_zero_of_not_mem
    (f : String × CallSession → Option (Nat × OutMsg))
    (hf : ∀ p r, f p = some r → msgCallId r.2 = some p.1)
    (l : List (String × CallSession)) (c : String)
    (hc : c ∉ l.map Prod.fst) :
    countForCall (l.filterMap f) c = 0 := by
  induction l with
  | nil => rfl
  | cons p rest ih =>
      rw [List.map_cons, List.mem_cons] at hc
      push_neg at hc
      cases hfp : f p with
      | none =>
          rw [List.filterMap_cons_none hfp]
          exact ih hc.2
      | some r =>
          have hr : msgCallId r.2 = some p.1 := hf p r hfp
          have hne : ¬ msgCallId r.2 = some c := by
            rw [hr]
            exact fun hh => hc.1 (Option.some_injective _ hh).symm
          rw [List.filterMap_cons_some hfp, countForCall,
            List.filter_cons_of_neg (by simpa using hne)]
          exact ih hc.2

theorem countForCall_filterMap
    (f : String × CallSession → Option (Nat × OutMsg))
    (hf : ∀ p r, f p = some r → msgCallId r.2 = some p.1)
    (l : List (String × CallSession)) (c : String)
    (hnd : (l.map Prod.fst).Nodup) :
    countForCall (l.filterMap f) c =
      match lookupA c l with
      | some v => match f (c, v) with | some _ => 1 | none => 0
      | none => 0 := by
  induction l with
  | nil => rfl
  | cons p rest ih =>
      rw [List.map_cons, List.nodup_cons] at hnd
      obtain ⟨pk, pv⟩ := p
      by_cases h : pk = c
      · subst h
        have hknot : pk ∉ rest.map Prod.fst := hnd.1
        have hl : lookupA pk ((pk, pv) :: rest) = some pv := by
          rw [lookupA, if_pos rfl]
        simp only [hl]
        cases hfp : f (pk, pv) with
        | none =>
            simp only [hfp, List.filterMap_cons_none hfp]
            exact countForCall_eq_zero_of_not_mem f hf rest pk hknot
        | some r =>
            have hr : msgCallId r.2 = some pk := hf (pk, pv) r hfp
            simp only [hfp, List.filterMap_cons_some hfp]
            rw [countForCall, List.filter_cons_of_pos (by simpa using hr),
              List.length_cons]
            have h0 := countForCall_eq_zero_of_not_mem f hf rest pk hknot
            rw [countForCall] at h0
            rw [h0]
      · have hl : lookupA c ((pk, pv) :: rest) = lookupA c rest := by
          rw [lookupA, if_neg h]
        rw [hl]
        cases hfp : f (pk, pv) with
        | none =>
            rw [List.filterMap_cons_none hfp]
            exact ih hnd.2
        | some r =>
            have hr : msgCallId r.2 = some pk := hf (pk, pv) r hfp
            have hne : ¬ msgCallId r.2 = some c := by
              rw [hr]
              exact fun hh => h (Option.some_injective _ hh)
            rw [List.filterMap_cons_some hfp, countForCall,
              List.filter_cons_of_neg (by simpa using hne)]
            exact ih hnd.2

/-- Helper: a `call-offer` always stores the new RINGING session under the
generated id, replacing whatever entry held that id before. -/
theorem handleOffer_lookup_new (st : SrvState) (isOpen : Nat → Bool)
    (userId : String) (ws : Nat) (receiverId sdp : String) (callType : CallType)
    (callerName callId : String) :
    lookupA callId
        (handleOffer st isOpen userId ws receiverId sdp callType callerName callId).1.activeCalls =
      some ⟨callId, userId, receiverId, callType, .ringing⟩ := by
  simp only [handleOffer]
  split
  · exact lookupA_setA_self _ _ _
  · exact lookupA_setA_self _ _ _

/-- Claim C1, as stated, is false: when the receiver is not registered the
caller does get `call-failed`, but with reason `"User not available"` (not
`"user not available"`), and the just-created session is NOT terminated —
it stays in `activeCalls` in state ringing. Concrete run: `a` registered on
socket 1 offers a call to the never-registered `b`. -/
theorem C1_counterexample :
    lookupA "b" ((⟨[("a", 1)], []⟩ : SrvState)).connections = none ∧
    handleOffer ⟨[("a", 1)], []⟩ (fun _ => true) "a" 1 "b" "offer" .video "A" "x" =
      (⟨[("a", 1)], [("x", ⟨"x", "a", "b", .video, .ringing⟩)]⟩,
       [(1, .callInitiated "x"), (1, .callFailed "User not available")]) ∧
    lookupA "x"
        (handleOffer ⟨[("a", 1)], []⟩ (fun _ => true) "a" 1 "b" "offer" .video "A"
          "x").1.activeCalls ≠ none ∧
    OutMsg.callFailed "User not available" ≠ OutMsg.callFailed "user not available" := by
  decide

/-- Claim C1 amended: for a call-offer whose receiver is not registered at
delivery time, the caller receives `call-initiated` followed by
`call-failed{reason: "User not available"}`, and the just-created session is
not terminated: it persists in the Call Session Store in state ringing. -/
theorem C1_offer_to_unregistered_receiver
    (st : SrvState) (isOpen : Nat → Bool) (userId : String) (ws : Nat)
    (receiverId sdp : String) (callType : CallType) (callerName callId : String)
    (hr : lookupA receiverId st.connections = none) :
    handleOffer st isOpen userId ws receiverId sdp callType callerName callId =
      (⟨st.connections,
          setA callId ⟨callId, userId, receiverId, callType, .ringing⟩ st.activeCalls⟩,
       [(ws, .callInitiated callId), (ws, .callFailed "User not available")]) ∧
    lookupA callId
        (handleOffer st isOpen userId ws receiverId sdp callType callerName
          callId).1.activeCalls =
      some ⟨callId, userId, receiverId, callType, .ringing⟩ := by
  constructor
  · simp only [handleOffer, deliverTo, hr]
    rfl
  · exact handleOffer_lookup_new st isOpen userId ws receiverId sdp callType callerName callId

/-- Concrete instance of `C1_offer_to_unregistered_receiver`. -/
theorem C1_offer_to_unregistered_receiver_witness :
    handleOffer ⟨[("a", 1)], []⟩ (fun _ => true) "a" 1 "b" "offer" .video "A" "x" =
      (⟨[("a", 1)], [("x", ⟨"x", "a", "b", .video, .ringing⟩)]⟩,
       [(1, .callInitiated "x"), (1, .callFailed "User not available")]) ∧
    lookupA "x"
        (handleOffer ⟨[("a", 1)], []⟩ (fun _ => true) "a" 1 "b" "offer" .video "A"
          "x").1.activeCalls =
      some ⟨"x", "a", "b", .video, .ringing⟩ :=
  C1_offer_to_unregistered_receiver ⟨[("a", 1)], []⟩ (fun _ => true) "a" 1 "b" "offer"
    .video "A" "x" (by decide)

/-- Claim C2, as stated, is false: the close handler runs
`connections.delete(userId)` with no identity check of the stored socket.
Concrete run: user `a` is currently registered on socket 2 (a newer
registration); the close of the stale socket 1 still removes that entry. -/
theorem C2_counterexample :
    lookupA "a" ((⟨[("a", 2)], []⟩ : SrvState)).connections = some 2 ∧
    (2 : Nat) ≠ 1 ∧
    handleClose ⟨[("a", 2)], []⟩ (fun _ => true) 1 (some "a") = (⟨[], []⟩, []) := by
  decide

/-- Claim C2 amended: the disconnect handling removes the registry entry for
`userID` unconditionally — the stored connection is never compared with the
closing one, so a stale disconnect also evicts a newer registration for the
same `userID`. -/
theorem C2_close_deletes_registration_unconditionally
    (st : SrvState) (isOpen : Nat → Bool) (ws : Nat) (uid : String) :
    lookupA uid (handleClose st isOpen ws (some uid)).1.connections = none := by
  simp only [handleClose]
  exact lookupA_eraseA_self uid st.connections

/-- Claim C3, as stated, is false: `call-answer` checks only that a session
with the given id exists — neither that it is RINGING nor who is answering.
Concrete run: session `c` is already ACTIVE, yet the answer is processed and
`call-answered` is sent (again) to the caller, instead of the silent no-op
the claim requires for a non-RINGING session. -/
theorem C3_counterexample :
    handleAnswer ⟨[("a", 1), ("b", 2)], [("c", ⟨"c", "a", "b", .voice, .active⟩)]⟩
        (fun _ => true) "c" "ans" =
      (⟨[("a", 1), ("b", 2)], [("c", ⟨"c", "a", "b", .voice, .active⟩)]⟩,
       [(1, .callAnswered "c" "ans")]) ∧
    [(1, OutMsg.callAnswered "c" "ans")] ≠ ([] : List (Nat × OutMsg)) := by
  decide

/-- Claim C3 amended: Answer succeeds if and only if a session with that
callID exists — the session state and the answerer's identity are not
checked. On success the session's status is set to active (whatever it was)
and `call-answered` is forwarded to the stored callerID when that user is
registered with an open connection; when no session exists the message is a
silent no-op that changes no state and sends nothing. -/
theorem C3_answer_requires_only_existence
    (st : SrvState) (isOpen : Nat → Bool) (callId sdp : String) (call : CallSession)
    (hc : lookupA callId st.activeCalls = some call) :
    (handleAnswer st isOpen callId sdp).1.connections = st.connections ∧
    lookupA callId (handleAnswer st isOpen callId sdp).1.activeCalls =
      some { call with status := .active } ∧
    (handleAnswer st isOpen callId sdp).2 =
      (match deliverTo st.connections isOpen call.callerId with
       | some cws => [(cws, .callAnswered callId sdp)]
       | none => []) ∧
    (∀ st2 : SrvState, lookupA callId st2.activeCalls = none →
        handleAnswer st2 isOpen callId sdp = (st2, [])) := by
  refine ⟨?_, ?_, ?_, ?_⟩
  · simp only [handleAnswer, hc]
    cases hd : deliverTo st.connections isOpen call.callerId with
    | none => simp [hd]
    | some cws => simp [hd]
  · simp only [handleAnswer, hc]
    cases hd : deliverTo st.connections isOpen call.callerId with
    | none => simp only [hd]; exact lookupA_setA_self _ _ _
    | some cws => simp only [hd]; exact lookupA_setA_self _ _ _
  · simp only [handleAnswer, hc]
    cases hd : deliverTo st.connections isOpen call.callerId with
    | none => simp [hd]
    | some cws => simp [hd]
  · intro st2 h2
    simp only [handleAnswer, h2]

/-- Concrete instance of `C3_answer_requires_only_existence`. -/
theorem C3_answer_requires_only_existence_witness :
    (handleAnswer ⟨[("a", 1)], [("c", ⟨"c", "a", "b", .voice, .ringing⟩)]⟩
        (fun _ => true) "c" "ans").1.connections = [("a", 1)] ∧
    lookupA "c"
        (handleAnswer ⟨[("a", 1)], [("c", ⟨"c", "a", "b", .voice, .ringing⟩)]⟩
          (fun _ => true) "c" "ans").1.activeCalls =
      some ⟨"c", "a", "b", .voice, .active⟩ ∧
    (handleAnswer ⟨[("a", 1)], [("c", ⟨"c", "a", "b", .voice, .ringing⟩)]⟩
        (fun _ => true) "c" "ans").2 = [(1, .callAnswered "c" "ans")] ∧
    (∀ st2 : SrvState, lookupA "c" st2.activeCalls = none →
        handleAnswer st2 (fun _ => true) "c" "ans" = (st2, [])) :=
  C3_answer_requires_only_existence ⟨[("a", 1)], [("c", ⟨"c", "a", "b", .voice, .ringing⟩)]⟩
    (fun _ => true) "c" "ans" ⟨"c", "a", "b", .voice, .ringing⟩ (by decide)

/-- Claim C8, as stated, is false: the call id is an unconstrained random
token (`Math.random().toString(36).substring(7)`) and the offer handler never
compares it with the ids of live sessions. A draw that collides with the live
session `"ab"` silently replaces that session. -/
theorem C8_counterexample :
    lookupA "ab"
        ((⟨[], [("ab", ⟨"ab", "a", "b", .voice, .ringing⟩)]⟩ : SrvState)).activeCalls =
      some ⟨"ab", "a", "b", .voice, .ringing⟩ ∧
    (handleOffer ⟨[], [("ab", ⟨"ab", "a", "b", .voice, .ringing⟩)]⟩ (fun _ => false)
        "x" 3 "y" "o" .voice "X" "ab").1.activeCalls =
      [("ab", ⟨"ab", "x", "y", .voice, .ringing⟩)] ∧
    CallSession.mk "ab" "x" "y" .voice .ringing ≠ ⟨"ab", "a", "b", .voice, .ringing⟩ := by
  decide

/-- Claim C8 amended: the generated call id is a random token that is not
checked against the Call Session Store — the offer handler stores the new
RINGING session under the generated id unconditionally, replacing any live
session that already holds that id. -/
theorem C8_offer_stores_session_unconditionally
    (st : SrvState) (isOpen : Nat → Bool) (userId : String) (ws : Nat)
    (receiverId sdp : String) (callType : CallType) (callerName callId : String) :
    lookupA callId
        (handleOffer st isOpen userId ws receiverId sdp callType callerName
          callId).1.activeCalls =
      some ⟨callId, userId, receiverId, callType, .ringing⟩ :=
  handleOffer_lookup_new st isOpen userId ws receiverId sdp callType callerName callId

/-- Claim C9, as stated, is false: nothing prevents a user from calling
themself. Concrete reachable run: `a` registers on socket 1 and then offers a
call to receiver `a`; the stored session has callerId = receiverId = `"a"`. -/
theorem C9_counterexample :
    lookupA "c"
        ((stepEv (stepEv initState (.register 1 "a")).1
          (.offer (fun _ => true) "a" 1 "a" "o" .voice "A" "c")).1).activeCalls =
      some ⟨"c", "a", "a", .voice, .ringing⟩ ∧
    (CallSession.mk "c" "a" "a" .voice .ringing).callerId =
      (CallSession.mk "c" "a" "a" .voice .ringing).receiverId := by
  decide

/-- Claim C9 amended: the code does not enforce caller id ≠ receiver id — a
call-offer naming the sender as receiver creates and stores a session whose
callerId equals its receiverId. -/
theorem C9_self_offer_stores_equal_ids
    (st : SrvState) (isOpen : Nat → Bool) (userId : String) (ws : Nat)
    (sdp : String) (callType : CallType) (callerName callId : String) :
    lookupA callId
        (handleOffer st isOpen userId ws userId sdp callType callerName
          callId).1.activeCalls =
      some ⟨callId, userId, userId, callType, .ringing⟩ :=
  handleOffer_lookup_new st isOpen userId ws userId sdp callType callerName callId

theorem mem_of_lookupA {α : Type} (k : String) (l : List (String × α)) (v : α)
    (h : lookupA k l = some v) : (k, v) ∈ l := by
  induction l with
  | nil => exact absurd h (by simp [lookupA])
  | cons p rest ih =>
      obtain ⟨pk, pv⟩ := p
      by_cases hk : pk = k
      · subst hk
        rw [lookupA, if_pos rfl] at h
        obtain rfl : pv = v := Option.some_injective _ h
        exact List.mem_cons_self _ _
      · rw [lookupA, if_neg hk] at h
        exact List.mem_cons_of_mem _ (ih h)

theorem lookupA_ne_none_of_mem {α : Type} (k : String) (l : List (String × α))
    (p : String × α) (hp : p ∈ l) (hk : p.1 = k) : lookupA k l ≠ none := by
  induction l with
  | nil => exact absurd hp (List.not_mem_nil p)
  | cons q rest ih =>
      obtain ⟨qk, qv⟩ := q
      rcases List.mem_cons.mp hp with h1 | h2
      · have : qk = k := by rw [← hk, h1]
        rw [lookupA, if_pos this]
        exact fun hh => Option.noConfusion hh
      · by_cases hq : qk = k
        · rw [lookupA, if_pos hq]
          exact fun hh => Option.noConfusion hh
        · rw [lookupA, if_neg hq]
          exact ih h2

theorem mem_setA {α : Type} (k : String) (v : α) (l : List (String × α))
    (p : String × α) (hp : p ∈ setA k v l) : p = (k, v) ∨ p ∈ l := by
  induction l with
  | nil => simpa [setA] using hp
  | cons q rest ih =>
      obtain ⟨qk, qv⟩ := q
      by_cases hq : qk = k
      · rw [setA, if_pos hq] at hp
        rcases List.mem_cons.mp hp with h1 | h2
        · exact Or.inl h1
        · exact Or.inr (List.mem_cons_of_mem _ h2)
      · rw [setA, if_neg hq] at hp
        rcases List.mem_cons.mp hp with h1 | h2
        · exact Or.inr (h1 ▸ List.mem_cons_self _ _)
        · rcases ih h2 with h3 | h4
          · exact Or.inl h3
          · exact Or.inr (List.mem_cons_of_mem _ h4)

/-- Helper: an `ice-candidate` never changes either map, whatever the input. -/
theorem handleIce_fst (st : SrvState) (isOpen : Nat → Bool) (u : Option String)
    (callId candidate : String) : (handleIce st isOpen u callId candidate).1 = st := by
  simp only [handleIce]
  split
  · rfl
  · split
    · rfl
    · rfl

/-- Helper: the state component of a `call-offer`. -/
theorem handleOffer_fst (st : SrvState) (isOpen : Nat → Bool) (userId : String)
    (ws : Nat) (receiverId sdp : String) (callType : CallType)
    (callerName callId : String) :
    (handleOffer st isOpen userId ws receiverId sdp callType callerName callId).1 =
      ⟨st.connections,
        setA callId ⟨callId, userId, receiverId, callType, .ringing⟩ st.activeCalls⟩ := by
  simp only [handleOffer]
  split
  · rfl
  · rfl

/-- Helper: the state component of a successful `call-answer`. -/
theorem handleAnswer_fst_of_some (st : SrvState) (isOpen : Nat → Bool)
    (callId sdp : String) (call : CallSession)
    (h : lookupA callId st.activeCalls = some call) :
    (handleAnswer st isOpen callId sdp).1 =
      ⟨st.connections, setA callId { call with status := .active } st.activeCalls⟩ := by
  simp only [handleAnswer, h]
  split
  · rfl
  · rfl

/-- Helper: the state component of a successful `call-end`/`call-reject`. -/
theorem handleEnd_fst_of_some (st : SrvState) (isOpen : Nat → Bool)
    (u : Option String) (isReject : Bool) (callId : String) (call : CallSession)
    (h : lookupA callId st.activeCalls = some call) :
    (handleEnd st isOpen u isReject callId).1 =
      ⟨st.connections,
        eraseA callId (setA callId { call with status := .ended } st.activeCalls)⟩ := by
  simp only [handleEnd, h]

/-- Claim C5: termination is idempotent. When no session with `callId` is in
the store (nonexistent, or already terminated — the last conjunct shows any
handled `call-end`/`call-reject` leaves no session under its id), a second
`call-end` or `call-reject` is a no-op returning the state unchanged with no
outbound message, and a disconnect produces no outbound message referencing
`callId` — so terminating a call twice yields exactly one peer
notification. -/
theorem C5_termination_idempotent
    (st : SrvState) (isOpen : Nat → Bool) (u : Option String) (ws : Nat)
    (uid : String) (callId : String)
    (h : lookupA callId st.activeCalls = none) :
    (∀ isReject, handleEnd st isOpen u isReject callId = (st, [])) ∧
    (∀ m ∈ (handleClose st isOpen ws (some uid)).2, msgCallId m.2 ≠ some callId) ∧
    (∀ (st2 : SrvState) (u2 : Option String) (r2 : Bool),
        lookupA callId ((handleEnd st2 isOpen u2 r2 callId).1).activeCalls = none) := by
  refine ⟨?_, ?_, ?_⟩
  · intro isReject
    simp only [handleEnd, h]
  · intro m hm
    simp only [handleClose] at hm
    obtain ⟨p, hpmem, hpf⟩ := List.mem_filterMap.mp hm
    have hp1 : msgCallId m.2 = some p.1 := by
      rcases hd : deliverTo (eraseA uid st.connections) isOpen
          (if p.2.callerId = uid then p.2.receiverId else p.2.callerId) with _ | ows
      · rw [hd] at hpf
        exact absurd hpf (by simp)
      · rw [hd] at hpf
        obtain rfl : (ows, OutMsg.callEnded p.1 (some "User disconnected")) = m :=
          Option.some_injective _ hpf
        rfl
    rw [hp1]
    intro hcontra
    have hpk : p.1 = callId := Option.some_injective _ hcontra
    exact lookupA_ne_none_of_mem callId st.activeCalls p
      (List.mem_filter.mp hpmem).1 hpk h
  · intro st2 u2 r2
    cases h2 : lookupA callId st2.activeCalls with
    | none =>
        simp only [handleEnd, h2]
    | some call =>
        rw [handleEnd_fst_of_some st2 isOpen u2 r2 callId call h2]
        exact lookupA_eraseA_self callId _

/-- Concrete instance of `C5_termination_idempotent`: with session `c` absent
(e.g. already ended), a further `call-end` is a no-op. -/
theorem C5_termination_idempotent_witness :
    handleEnd ⟨[("a", 1), ("b", 2)], []⟩ (fun _ => true) (some "a") false "c" =
      (⟨[("a", 1), ("b", 2)], []⟩, []) :=
  (C5_termination_idempotent ⟨[("a", 1), ("b", 2)], []⟩ (fun _ => true) (some "a") 1
    "a" "c" (by decide)).1 false

/-- Claim C7: handling an `ice-candidate` never changes either map; when the
call id names a live session and the sender is one of its two parties, the
candidate payload is forwarded verbatim as a single `ice-candidate` message
to the other party's connection exactly when that user is registered with an
open connection; and when the call id is unknown (e.g. already terminated and
hence removed) the message is dropped: no state change, no delivery, no
error. -/
theorem C7_ice_forwarding
    (st : SrvState) (isOpen : Nat → Bool) (u : Option String)
    (callId candidate : String) (call : CallSession)
    (hs : lookupA callId st.activeCalls = some call)
    (hu : u = some call.callerId ∨ u = some call.receiverId) :
    (∀ (st2 : SrvState) (u2 : Option String),
        (handleIce st2 isOpen u2 callId candidate).1 = st2) ∧
    (handleIce st isOpen u callId candidate).2 =
      (match deliverTo st.connections isOpen
          (if u = some call.callerId then call.receiverId else call.callerId) with
       | some ows => [(ows, .iceCandidate callId candidate)]
       | none => []) ∧
    (∀ st2 : SrvState, lookupA callId st2.activeCalls = none →
        handleIce st2 isOpen u callId candidate = (st2, [])) := by
  refine ⟨?_, ?_, ?_⟩
  · intro st2 u2
    exact handleIce_fst st2 isOpen u2 callId candidate
  · simp only [handleIce, hs]
    cases hd : deliverTo st.connections isOpen
        (if u = some call.callerId then call.receiverId else call.callerId) with
    | none => simp only [hd]
    | some ows => simp only [hd]
  · intro st2 h2
    simp only [handleIce, h2]

/-- Concrete instance of `C7_ice_forwarding`: candidate from the caller of
live session `c` is forwarded verbatim to the receiver on socket 2. -/
theorem C7_ice_forwarding_witness :
    (handleIce ⟨[("a", 1), ("b", 2)], [("c", ⟨"c", "a", "b", .video, .active⟩)]⟩
        (fun _ => true) (some "a") "c" "cand").2 = [(2, .iceCandidate "c" "cand")] :=
  (C7_ice_forwarding ⟨[("a", 1), ("b", 2)], [("c", ⟨"c", "a", "b", .video, .active⟩)]⟩
    (fun _ => true) (some "a") "c" "cand" ⟨"c", "a", "b", .video, .active⟩
    (by decide) (Or.inl (by decide))).2.1

/-- Helper: `call-answer` for an unknown id leaves the state unchanged. -/
theorem handleAnswer_fst_of_none (st : SrvState) (isOpen : Nat → Bool)
    (callId sdp : String) (h : lookupA callId st.activeCalls = none) :
    (handleAnswer st isOpen callId sdp).1 = st := by
  simp only [handleAnswer, h]

/-- Claim C4, as stated, is false in its reason string: the disconnect
notification carries reason `"User disconnected"`, not `"peer disconnected"`.
Concrete run: `a` (socket 1) and `b` (socket 2) registered, session `c`
ACTIVE; `a` disconnects. -/
theorem C4_counterexample :
    (handleClose ⟨[("a", 1), ("b", 2)], [("c", ⟨"c", "a", "b", .video, .active⟩)]⟩
        (fun _ => true) 1 (some "a")).2 =
      [(2, OutMsg.callEnded "c" (some "User disconnected"))] ∧
    [(2, OutMsg.callEnded "c" (some "User disconnected"))] ≠
      [(2, OutMsg.callEnded "c" (some "peer disconnected"))] := by
  decide

/-- Claim C4 amended: when registered user `uid`'s connection closes, the
registry entry for `uid` is removed, every session in which `uid` is caller
or receiver is removed from the store, and for each such session the
surviving peer receives exactly one `call-ended{callID, reason:"User
disconnected"}` message when registered with an open connection (and none
otherwise). -/
theorem C4_close_removes_and_notifies_once
    (st : SrvState) (isOpen : Nat → Bool) (ws : Nat) (uid : String)
    (hnd : (st.activeCalls.map Prod.fst).Nodup)
    (c : String) (call : CallSession)
    (hc : lookupA c st.activeCalls = some call)
    (hin : call.callerId = uid ∨ call.receiverId = uid) :
    lookupA uid (handleClose st isOpen ws (some uid)).1.connections = none ∧
    lookupA c (handleClose st isOpen ws (some uid)).1.activeCalls = none ∧
    (∀ ows, deliverTo (eraseA uid st.connections) isOpen (otherParty uid call) = some ows →
        countForCall (handleClose st isOpen ws (some uid)).2 c = 1 ∧
        (ows, OutMsg.callEnded c (some "User disconnected")) ∈
          (handleClose st isOpen ws (some uid)).2) ∧
    (deliverTo (eraseA uid st.connections) isOpen (otherParty uid call) = none →
        countForCall (handleClose st isOpen ws (some uid)).2 c = 0) := by
  have hinb : (decide (call.callerId = uid) || decide (call.receiverId = uid)) = true := by
    rcases hin with h1 | h1 <;> simp [h1]
  have hf : ∀ (p : String × CallSession) (r : Nat × OutMsg),
      (match deliverTo (eraseA uid st.connections) isOpen
          (if p.2.callerId = uid then p.2.receiverId else p.2.callerId) with
       | some ows => some (ows, OutMsg.callEnded p.1 (some "User disconnected"))
       | none => none) = some r → msgCallId r.2 = some p.1 := by
    intro p r hpr
    cases hdp : deliverTo (eraseA uid st.connections) isOpen
        (if p.2.callerId = uid then p.2.receiverId else p.2.callerId) with
    | none =>
        simp only [hdp] at hpr
        exact Option.noConfusion hpr
    | some o2 =>
        simp only [hdp] at hpr
        obtain rfl : (o2, OutMsg.callEnded p.1 (some "User disconnected")) = r :=
          Option.some_injective _ hpr
        rfl
  have hnd2 : (((st.activeCalls.filter
        (fun p => p.2.callerId = uid || p.2.receiverId = uid)).map Prod.fst)).Nodup :=
    List.Nodup.sublist ((List.filter_sublist st.activeCalls).map Prod.fst) hnd
  have hlf : lookupA c (st.activeCalls.filter
        (fun p => p.2.callerId = uid || p.2.receiverId = uid)) = some call := by
    rw [lookupA_filter_of_nodup _ _ _ hnd]
    simp only [hc, hinb]
    rfl
  have hcount := countForCall_filterMap
    (fun p => match deliverTo (eraseA uid st.connections) isOpen
        (if p.2.callerId = uid then p.2.receiverId else p.2.callerId) with
     | some ows => some (ows, OutMsg.callEnded p.1 (some "User disconnected"))
     | none => none)
    hf
    (st.activeCalls.filter (fun p => p.2.callerId = uid || p.2.receiverId = uid))
    c hnd2
  rw [hlf] at hcount
  refine ⟨?_, ?_, ?_, ?_⟩
  · exact lookupA_eraseA_self uid st.connections
  · show lookupA c (st.activeCalls.filter
        (fun p => ¬ (p.2.callerId = uid || p.2.receiverId = uid))) = none
    rw [lookupA_filter_of_nodup _ _ _ hnd]
    simp only [hc, hinb]
    rfl
  · intro ows hd
    rw [otherParty] at hd
    constructor
    · show countForCall
          ((st.activeCalls.filter
            (fun p => p.2.callerId = uid || p.2.receiverId = uid)).filterMap
          (fun p => match deliverTo (eraseA uid st.connections) isOpen
              (if p.2.callerId = uid then p.2.receiverId else p.2.callerId) with
           | some ows => some (ows, OutMsg.callEnded p.1 (some "User disconnected"))
           | none => none)) c = 1
      rw [hcount]
      simp only [hd]
    · show (ows, OutMsg.callEnded c (some "User disconnected")) ∈
          ((st.activeCalls.filter
            (fun p => p.2.callerId = uid || p.2.receiverId = uid)).filterMap
          (fun p => match deliverTo (eraseA uid st.connections) isOpen
              (if p.2.callerId = uid then p.2.receiverId else p.2.callerId) with
           | some ows => some (ows, OutMsg.callEnded p.1 (some "User disconnected"))
           | none => none))
      refine List.mem_filterMap.mpr ⟨(c, call), mem_of_lookupA _ _ _ hlf, ?_⟩
      simp only [hd]
  · intro hd
    rw [otherParty] at hd
    show countForCall
        ((st.activeCalls.filter
          (fun p => p.2.callerId = uid || p.2.receiverId = uid)).filterMap
        (fun p => match deliverTo (eraseA uid st.connections) isOpen
            (if p.2.callerId = uid then p.2.receiverId else p.2.callerId) with
         | some ows => some (ows, OutMsg.callEnded p.1 (some "User disconnected"))
         | none => none)) c = 0
    rw [hcount]
    simp only [hd]

/-- Concrete instance of `C4_close_removes_and_notifies_once`. -/
theorem C4_close_removes_and_notifies_once_witness :
    countForCall (handleClose ⟨[("a", 1), ("b", 2)],
        [("c", ⟨"c", "a", "b", .video, .active⟩)]⟩ (fun _ => true) 1 (some "a")).2 "c" = 1 ∧
    (2, OutMsg.callEnded "c" (some "User disconnected")) ∈
      (handleClose ⟨[("a", 1), ("b", 2)],
        [("c", ⟨"c", "a", "b", .video, .active⟩)]⟩ (fun _ => true) 1 (some "a")).2 :=
  (C4_close_removes_and_notifies_once ⟨[("a", 1), ("b", 2)],
      [("c", ⟨"c", "a", "b", .video, .active⟩)]⟩ (fun _ => true) 1 "a" (by decide)
      "c" ⟨"c", "a", "b", .video, .active⟩ (by decide) (Or.inl (by decide))).2.2.1
    2 (by decide)

/-- Helper: no handled event leaves a session with status ended in the store
(the `call-end`/`call-reject` handler deletes the entry in the same step, and
no other handler writes status ended). -/
theorem stepEv_preserves_no_ended (st : SrvState) (e : Event)
    (h : ∀ p ∈ st.activeCalls, p.2.status ≠ .ended) :
    ∀ p ∈ (stepEv st e).1.activeCalls, p.2.status ≠ .ended := by
  cases e with
  | register ws uid =>
      intro p hp
      exact h p hp
  | offer isO u2 w2 r2 o2 t2 n2 cid =>
      intro p hp
      rw [show stepEv st (.offer isO u2 w2 r2 o2 t2 n2 cid) =
            handleOffer st isO u2 w2 r2 o2 t2 n2 cid from rfl,
          handleOffer_fst] at hp
      replace hp : p ∈ setA cid ⟨cid, u2, r2, t2, .ringing⟩ st.activeCalls := hp
      rcases mem_setA _ _ _ _ hp with h1 | h2
      · rw [h1]
        simp
      · exact h p h2
  | answer isO cid sdp =>
      cases hl : lookupA cid st.activeCalls with
      | none =>
          intro p hp
          rw [show stepEv st (.answer isO cid sdp) = handleAnswer st isO cid sdp from rfl,
              handleAnswer_fst_of_none st isO cid sdp hl] at hp
          exact h p hp
      | some call =>
          intro p hp
          rw [show stepEv st (.answer isO cid sdp) = handleAnswer st isO cid sdp from rfl,
              handleAnswer_fst_of_some st isO cid sdp call hl] at hp
          replace hp : p ∈ setA cid { call with status := .active } st.activeCalls := hp
          rcases mem_setA _ _ _ _ hp with h1 | h2
          · rw [h1]
            simp
          · exact h p h2
  | endCall isO u2 r2 cid =>
      cases hl : lookupA cid st.activeCalls with
      | none =>
          intro p hp
          rw [show stepEv st (.endCall isO u2 r2 cid) = handleEnd st isO u2 r2 cid from rfl] at hp
          simp only [handleEnd, hl] at hp
          exact h p hp
      | some call =>
          intro p hp
          rw [show stepEv st (.endCall isO u2 r2 cid) = handleEnd st isO u2 r2 cid from rfl,
              handleEnd_fst_of_some st isO u2 r2 cid call hl] at hp
          replace hp : p ∈ eraseA cid (setA cid { call with status := .ended } st.activeCalls) := hp
          rw [eraseA] at hp
          obtain ⟨hmem, hkeep⟩ := List.mem_filter.mp hp
          rcases mem_setA _ _ _ _ hmem with h1 | h2
          · exfalso
            rw [h1] at hkeep
            simp at hkeep
          · exact h p h2
  | ice isO u2 cid cand =>
      intro p hp
      rw [show stepEv st (.ice isO u2 cid cand) = handleIce st isO u2 cid cand from rfl,
          handleIce_fst] at hp
      exact h p hp
  | close isO w2 u2 =>
      cases u2 with
      | none =>
          intro p hp
          exact h p hp
      | some uid =>
          intro p hp
          replace hp : p ∈ st.activeCalls.filter
              (fun q => ¬ (q.2.callerId = uid || q.2.receiverId = uid)) := hp
          exact h p (List.mem_filter.mp hp).1

/-- Helper: the no-ended-session invariant holds in every reachable state. -/
theorem reachable_no_ended (st : SrvState) (hr : Reachable st) :
    ∀ p ∈ st.activeCalls, p.2.status ≠ .ended := by
  induction hr with
  | init =>
      intro p hp
      exact absurd hp (List.not_mem_nil p)
  | step st' e hprev hih => exact stepEv_preserves_no_ended st' e hih

/-- Claim C10: no terminal session ever persists — in every reachable state
of the relay, every session present in the Call Session Store has status
ringing or active. -/
theorem C10_no_terminal_session_persists (st : SrvState) (hr : Reachable st)
    (c : String) (s : CallSession) (hc : lookupA c st.activeCalls = some s) :
    s.status = .ringing ∨ s.status = .active := by
  have hnotend := reachable_no_ended st hr (c, s) (mem_of_lookupA c st.activeCalls s hc)
  cases hstat : s.status with
  | ringing => exact Or.inl rfl
  | active => exact Or.inr rfl
  | ended => exact absurd hstat hnotend

/-- Concrete instance of `C10_no_terminal_session_persists` at the reachable
state in which `a` has registered and offered a call to `b`. -/
theorem C10_no_terminal_session_persists_witness :
    (CallSession.mk "c" "a" "b" .video .ringing).status = .ringing ∨
    (CallSession.mk "c" "a" "b" .video .ringing).status = .active :=
  C10_no_terminal_session_persists
    (stepEv (stepEv initState (.register 1 "a")).1
      (.offer (fun _ => true) "a" 1 "b" "o" .video "A" "c")).1
    (Reachable.step (stepEv initState (.register 1 "a")).1
      (.offer (fun _ => true) "a" 1 "b" "o" .video "A" "c")
      (Reachable.step initState (.register 1 "a") Reachable.init))
    "c" ⟨"c", "a", "b", .video, .ringing⟩ (by decide)

/-- Claim C6, as stated, is false: the generated call id of a `call-offer`
is not checked against live sessions (see C8), and a colliding offer resets
the live session under that id to a fresh RINGING one, moving the id's
observed state backwards. Concrete reachable run: `a` (socket 1) and `b`
(socket 2) register, `a` offers `b` a call with generated id `"ab"`, `b`
answers (session `"ab"` is ACTIVE), then a second offer draws the same id
`"ab"` — the stored status for id `"ab"` regresses from active to ringing,
so the id's state sequence ringing, active, ringing is not a subsequence of
RINGING → ACTIVE → ENDED. -/
theorem C6_counterexample :
    lookupA "ab"
        ((stepEv (stepEv (stepEv (stepEv initState (.register 1 "a")).1
            (.register 2 "b")).1
          (.offer (fun _ => true) "a" 1 "b" "o" .voice "A" "ab")).1
          (.answer (fun _ => true) "ab" "ans")).1).activeCalls =
      some ⟨"ab", "a", "b", .voice, .active⟩ ∧
    lookupA "ab"
        ((stepEv (stepEv (stepEv (stepEv (stepEv initState (.register 1 "a")).1
            (.register 2 "b")).1
          (.offer (fun _ => true) "a" 1 "b" "o" .voice "A" "ab")).1
          (.answer (fun _ => true) "ab" "ans")).1
          (.offer (fun _ => true) "a" 1 "b" "o2" .voice "A" "ab")).1).activeCalls =
      some ⟨"ab", "a", "b", .voice, .ringing⟩ ∧
    ¬ statusRank CallStatus.active ≤ statusRank CallStatus.ringing := by
  decide

/-- Claim C6 amended: provided every handled `call-offer`'s generated id is
fresh — not the id of a currently live session, which the code itself does
not guarantee (C8) — the claimed lifecycle holds. In any handled step from a
state satisfying the reachable-state invariants (unique store keys, no
stored ENDED session) whose offers use fresh ids, the status of a session
that exists before and after the step never decreases along
RINGING → ACTIVE → ENDED; and since a terminated session is removed in the
same step (ENDED ≡ absent, see C10), any further `call-answer` /
`call-end` / `call-reject` / `ice-candidate` referencing an absent call id
is dropped: state unchanged, no outbound message. -/
theorem C6_lifecycle_monotone
    (st : SrvState) (e : Event) (c : String)
    (hkeys : (st.activeCalls.map Prod.fst).Nodup)
    (hne : ∀ p ∈ st.activeCalls, p.2.status ≠ .ended)
    (hfresh : ∀ isO u2 w2 r2 o2 t2 n2 cid,
        e = .offer isO u2 w2 r2 o2 t2 n2 cid → lookupA cid st.activeCalls = none) :
    (∀ s s', lookupA c st.activeCalls = some s →
        lookupA c (stepEv st e).1.activeCalls = some s' →
        statusRank s.status ≤ statusRank s'.status) ∧
    (lookupA c st.activeCalls = none → refsCall c e → stepEv st e = (st, [])) := by
  constructor
  · intro s s' hs hs'
    cases e with
    | register w2 u2 =>
        replace hs' : lookupA c st.activeCalls = some s' := hs'
        rw [hs] at hs'
        obtain rfl := Option.some_injective _ hs'
        exact le_refl _
    | offer isO u2 w2 r2 o2 t2 n2 cid =>
        have hcid : lookupA cid st.activeCalls = none :=
          hfresh isO u2 w2 r2 o2 t2 n2 cid rfl
        by_cases hcc : c = cid
        · rw [hcc, hcid] at hs
          exact Option.noConfusion hs
        · rw [show stepEv st (.offer isO u2 w2 r2 o2 t2 n2 cid) =
                handleOffer st isO u2 w2 r2 o2 t2 n2 cid from rfl,
              handleOffer_fst] at hs'
          replace hs' :
              lookupA c (setA cid ⟨cid, u2, r2, t2, .ringing⟩ st.activeCalls) = some s' := hs'
          rw [lookupA_setA_ne cid c _ _ hcc, hs] at hs'
          obtain rfl := Option.some_injective _ hs'
          exact le_refl _
    | answer isO cid sdp =>
        cases hl : lookupA cid st.activeCalls with
        | none =>
            rw [show stepEv st (.answer isO cid sdp) = handleAnswer st isO cid sdp from rfl,
                handleAnswer_fst_of_none st isO cid sdp hl] at hs'
            rw [hs] at hs'
            obtain rfl := Option.some_injective _ hs'
            exact le_refl _
        | some call =>
            rw [show stepEv st (.answer isO cid sdp) = handleAnswer st isO cid sdp from rfl,
                handleAnswer_fst_of_some st isO cid sdp call hl] at hs'
            replace hs' :
                lookupA c (setA cid { call with status := .active } st.activeCalls) =
                  some s' := hs'
            by_cases hcc : c = cid
            · rw [hcc] at hs hs'
              rw [lookupA_setA_self] at hs'
              rw [hl] at hs
              obtain rfl := Option.some_injective _ hs
              obtain rfl := Option.some_injective _ hs'
              have hnend := hne (cid, call) (mem_of_lookupA cid st.activeCalls call hl)
              cases hstat : call.status with
              | ringing => simp [statusRank, hstat]
              | active => simp [statusRank, hstat]
              | ended => exact absurd hstat hnend
            · rw [lookupA_setA_ne cid c _ _ hcc, hs] at hs'
              obtain rfl := Option.some_injective _ hs'
              exact le_refl _
    | endCall isO u2 r2 cid =>
        cases hl : lookupA cid st.activeCalls with
        | none =>
            rw [show stepEv st (.endCall isO u2 r2 cid) = handleEnd st isO u2 r2 cid from rfl,
                show (handleEnd st isO u2 r2 cid).1 = st by
                  simp only [handleEnd, hl]] at hs'
            rw [hs] at hs'
            obtain rfl := Option.some_injective _ hs'
            exact le_refl _
        | some call =>
            rw [show stepEv st (.endCall isO u2 r2 cid) = handleEnd st isO u2 r2 cid from rfl,
                handleEnd_fst_of_some st isO u2 r2 cid call hl] at hs'
            replace hs' :
                lookupA c (eraseA cid (setA cid { call with status := .ended }
                  st.activeCalls)) = some s' := hs'
            by_cases hcc : c = cid
            · rw [hcc, lookupA_eraseA_self] at hs'
              exact Option.noConfusion hs'
            · rw [lookupA_eraseA_ne cid c _ hcc, lookupA_setA_ne cid c _ _ hcc, hs] at hs'
              obtain rfl := Option.some_injective _ hs'
              exact le_refl _
    | ice isO u2 cid cand =>
        rw [show stepEv st (.ice isO u2 cid cand) = handleIce st isO u2 cid cand from rfl,
            handleIce_fst] at hs'
        rw [hs] at hs'
        obtain rfl := Option.some_injective _ hs'
        exact le_refl _
    | close isO w2 u2 =>
        cases u2 with
        | none =>
            replace hs' : lookupA c st.activeCalls = some s' := hs'
            rw [hs] at hs'
            obtain rfl := Option.some_injective _ hs'
            exact le_refl _
        | some uid =>
            replace hs' : lookupA c (st.activeCalls.filter
                (fun q => ¬ (q.2.callerId = uid || q.2.receiverId = uid))) = some s' := hs'
            rw [lookupA_filter_of_nodup _ _ _ hkeys] at hs'
            simp only [hs] at hs'
            split at hs'
            · obtain rfl := Option.some_injective _ hs'
              exact le_refl _
            · exact Option.noConfusion hs'
  · intro hnone href
    cases e with
    | register w2 u2 => exact href.elim
    | offer isO u2 w2 r2 o2 t2 n2 cid => exact href.elim
    | answer isO cid sdp =>
        have hcc : cid = c := href
        subst hcc
        simp only [stepEv, handleAnswer, hnone]
    | endCall isO u2 r2 cid =>
        have hcc : cid = c := href
        subst hcc
        simp only [stepEv, handleEnd, hnone]
    | ice isO u2 cid cand =>
        have hcc : cid = c := href
        subst hcc
        simp only [stepEv, handleIce, hnone]
    | close isO w2 u2 => exact href.elim

/-- Concrete instance of `C6_lifecycle_monotone`: a `call-answer` for an
absent call id is dropped without effect. -/
theorem C6_lifecycle_monotone_witness :
    stepEv initState (.answer (fun _ => true) "c" "x") = (initState, []) :=
  (C6_lifecycle_monotone initState (.answer (fun _ => true) "c" "x") "c"
    (by decide) (fun p hp => absurd hp (List.not_mem_nil p))
    (fun isO u2 w2 r2 o2 t2 n2 cid heq => Event.noConfusion heq)).2 rfl rfl

end MinimalChat
